import Mathlib

/-!
Verification of the QA metric computation library of the ACR-phantom
MRI quality-assurance macro collection.

The scripts interleave host-GUI orchestration with small closed-form
numeric computations.  Here the numeric computations are embedded
shallowly: Python/Jython floats are modelled as exact rationals (the
formulas are rational apart from the calibration converter, which uses
real square roots), and each fallible computation step returns an
explicit result that distinguishes a computed value, an explicitly
logged error path, and an uncaught runtime exception.
-/

namespace MacroQA

/-- Outcome of one computation step of a script.
`value` is a normally computed number; `errorLog` is the explicit
error branch (the script tests the degenerate input itself and logs an
error message instead of computing); `crash` is an uncaught runtime
exception (e.g. Jython raises `ZeroDivisionError` on float division by
zero). -/
inductive CalcResult (α : Type) where
  | value : α → CalcResult α
  | errorLog : CalcResult α
  | crash : CalcResult α
deriving DecidableEq

/-- Step 6 of `Image_intensity_uniformity.py` (and Passo 7 of
`3_Teste_Uniformidade.py`):
`if (high_signal + low_signal) == 0:` log an error, `else`
`piu = 100.0 * (1.0 - ((high_signal - low_signal) / (high_signal + low_signal)))`. -/
def piu (high low : ℚ) : CalcResult ℚ :=
  if high + low = 0 then CalcResult.errorLog
  else CalcResult.value (100 * (1 - (high - low) / (high + low)))

/-- Step 8 of `Percentage_signal_ghosting.py` (and Passo 8 of
`4_Teste_Imagem_Residual.py`):
`if (mean_ref) == 0:` log an error, `else`
`GR = abs((((top - btm)-(left+right))*100) / (2.0*mean_ref))`. -/
def GR (top btm left right mean_ref : ℚ) : CalcResult ℚ :=
  if mean_ref = 0 then CalcResult.errorLog
  else CalcResult.value (|(((top - btm) - (left + right)) * 100) / (2 * mean_ref)|)

/-- Step 6 of `Slice_thickness_accuracy.py` (and the `resultado` line of
`1_Teste_Exatidão_Espessura.py`):
`results = 0.2 * (length3 * length4) / (length3 + length4)` with no
guard on the divisor: when `length3 + length4 == 0` the float division
raises an uncaught `ZeroDivisionError`, modelled as `crash`.
The literal `0.2` is modelled as the exact rational `1/5`. -/
def slice_thickness (length3 length4 : ℚ) : CalcResult ℚ :=
  if length3 + length4 = 0 then CalcResult.crash
  else CalcResult.value ((1 / 5) * (length3 * length4) / (length3 + length4))

/-- C1: for every pair of mean intensities with `high + low ≠ 0` the PIU
step computes exactly `100 * (1 - (high - low)/(high + low))`, and when
`high + low = 0` it takes the explicit error branch instead of
computing a number. -/
theorem piu_spec (high low : ℚ) :
    (high + low ≠ 0 →
      piu high low = CalcResult.value (100 * (1 - (high - low) / (high + low)))) ∧
    (high + low = 0 → piu high low = CalcResult.errorLog) := by
  constructor
  · intro h
    simp [piu, h]
  · intro h
    simp [piu, h]

/-- Witness for C1: at `high = 2, low = 1` the PIU step computes the
formula, and at `high = 1, low = -1` it takes the error branch. -/
theorem piu_spec_witness :
    piu 2 1 = CalcResult.value (100 * (1 - (2 - 1) / (2 + 1))) ∧
    piu 1 (-1) = CalcResult.errorLog := by
  constructor
  · exact (piu_spec 2 1).1 (by norm_num)
  · exact (piu_spec 1 (-1)).2 (by norm_num)

/-- C2: for every five mean intensities with `mean_ref ≠ 0` the ghosting
step computes exactly `|((top - btm) - (left + right)) * 100 / (2 * mean_ref)|`
(and in particular `central=100, top=110, btm=90, left=right=100` gives
`90`), and when `mean_ref = 0` it takes the explicit error branch. -/
theorem GR_spec (top btm left right mean_ref : ℚ) :
    (mean_ref ≠ 0 →
      GR top btm left right mean_ref =
        CalcResult.value (|(((top - btm) - (left + right)) * 100) / (2 * mean_ref)|)) ∧
    (mean_ref = 0 → GR top btm left right mean_ref = CalcResult.errorLog) ∧
    GR 110 90 100 100 100 = CalcResult.value 90 := by
  refine ⟨?_, ?_, ?_⟩
  · intro h
    simp [GR, h]
  · intro h
    simp [GR, h]
  · have h : (100 : ℚ) ≠ 0 := by norm_num
    simp only [GR, if_neg h]
    norm_num

/-- Witness for C2: at `top = 1, btm = 2, left = 3, right = 4, mean_ref = 5`
the ghosting step computes the formula, and with `mean_ref = 0` it
takes the error branch. -/
theorem GR_spec_witness :
    GR 1 2 3 4 5 = CalcResult.value (|(((1 - 2) - (3 + 4)) * 100) / (2 * 5)|) ∧
    GR 1 2 3 4 0 = CalcResult.errorLog := by
  constructor
  · exact (GR_spec 1 2 3 4 5).1 (by norm_num)
  · exact ((GR_spec 1 2 3 4 0).2).1 rfl

/-- C3: for every pair of line lengths with `length3 + length4 ≠ 0` the
slice-thickness step computes exactly `0.2 * (length3 * length4) / (length3 + length4)`,
and in particular `length3 = 40, length4 = 60` gives `4.8 = 24/5`. -/
theorem slice_thickness_spec (length3 length4 : ℚ) :
    (length3 + length4 ≠ 0 →
      slice_thickness length3 length4 =
        CalcResult.value ((1 / 5) * (length3 * length4) / (length3 + length4))) ∧
    slice_thickness 40 60 = CalcResult.value (24 / 5) := by
  constructor
  · intro h
    simp [slice_thickness, h]
  · have h : (40 : ℚ) + 60 ≠ 0 := by norm_num
    simp only [slice_thickness, if_neg h]
    norm_num

/-- Witness for C3: at `length3 = 40, length4 = 60` the slice-thickness
step computes the formula. -/
theorem slice_thickness_spec_witness :
    slice_thickness 40 60 = CalcResult.value ((1 / 5) * (40 * 60) / (40 + 60)) :=
  (slice_thickness_spec 40 60).1 (by norm_num)

/-- C7: at `length3 = 0, length4 = 0` the unguarded division in the
slice-thickness step raises an uncaught `ZeroDivisionError` (a crash),
rather than surfacing the explicit "cannot compute" error branch that
the sibling PIU and ghosting steps implement. -/
theorem slice_thickness_zero_crash :
    slice_thickness 0 0 = CalcResult.crash ∧
    slice_thickness 0 0 ≠ CalcResult.errorLog := by
  constructor
  · simp [slice_thickness]
  · simp [slice_thickness]

/-- What `imp.getRoi()` hands to a measurement step: no ROI at all, an
ROI whose `getType()` is not `Roi.LINE`, or a line ROI together with
the measured length and the centroid x-coordinate from the results
table. -/
inductive RoiSel where
  | missing : RoiSel
  | wrongShape : RoiSel
  | line : ℚ → ℚ → RoiSel
deriving DecidableEq

namespace SlicePosition

/-- The fallback `pw = cal.pixelWidth if (cal and cal.pixelWidth) else 1.0` in
`Slice_position_accuracy.py`: a zero (falsy) pixel width falls back to
`1.0`. -/
def effective_pw (pw : ℚ) : ℚ :=
  if pw = 0 then 1 else pw

/-- Function `get_measurement` of `Slice_position_accuracy.py` (lines 71–121),
reduced to its data flow: when no line ROI is drawn (or the ROI has
the wrong shape) it shows an error dialog and returns `int(0)`;
otherwise it converts the centroid x to pixels (`x_px = x_val / pw`)
and returns `-length` when `x_px > 127` (the default `cutoff_px`) and
`length` otherwise. -/
def get_measurement (roi : RoiSel) (pw : ℚ) : ℚ :=
  match roi with
  | RoiSel.missing => 0
  | RoiSel.wrongShape => 0
  | RoiSel.line length x_val =>
      if x_val / effective_pw pw > 127 then -length else length

end SlicePosition

namespace GeometricAccuracy

/-- Function `get_measurement` of `Geometric_accuracy.py` (lines 41–61), reduced
to its data flow: when no line ROI is drawn (or the ROI has the wrong
shape) it shows an error dialog and returns `None`; otherwise it
returns the measured length from the results table. -/
def get_measurement (roi : RoiSel) : Option ℚ :=
  match roi with
  | RoiSel.missing => none
  | RoiSel.wrongShape => none
  | RoiSel.line length _ => some length

end GeometricAccuracy

/-- C4: for every measured line, the signed-length step of
`Slice_position_accuracy.py` returns the negated length when the
centroid x-coordinate divided by the image pixel width exceeds the
cutoff `127`, and the unchanged length otherwise; in particular
`x_px = 200` with length `5` gives `-5` and `x_px = 50` gives `5`. -/
theorem get_measurement_sign_spec (length x_val pw : ℚ) :
    (127 < x_val / SlicePosition.effective_pw pw →
      SlicePosition.get_measurement (RoiSel.line length x_val) pw = -length) ∧
    (x_val / SlicePosition.effective_pw pw ≤ 127 →
      SlicePosition.get_measurement (RoiSel.line length x_val) pw = length) ∧
    SlicePosition.get_measurement (RoiSel.line 5 200) 1 = -5 ∧
    SlicePosition.get_measurement (RoiSel.line 5 50) 1 = 5 := by
  refine ⟨?_, ?_, ?_, ?_⟩
  · intro h
    simp [SlicePosition.get_measurement, h]
  · intro h
    simp [SlicePosition.get_measurement, not_lt.mpr h]
  · have h : (127 : ℚ) < 200 / SlicePosition.effective_pw 1 := by
      norm_num [SlicePosition.effective_pw]
    simp [SlicePosition.get_measurement, h]
  · have h : ¬ (127 : ℚ) < 50 / SlicePosition.effective_pw 1 := by
      norm_num [SlicePosition.effective_pw]
    simp [SlicePosition.get_measurement, h]

/-- Witness for C4: at `length = 5, x_val = 200, pw = 1` the sign rule
negates and at `x_val = 50` it keeps the sign. -/
theorem get_measurement_sign_spec_witness :
    SlicePosition.get_measurement (RoiSel.line 5 200) 1 = -5 ∧
    SlicePosition.get_measurement (RoiSel.line 5 50) 1 = 5 := by
  constructor
  · exact (get_measurement_sign_spec 5 200 1).1
      (by norm_num [SlicePosition.effective_pw])
  · exact ((get_measurement_sign_spec 5 50 1).2).1
      (by norm_num [SlicePosition.effective_pw])

/-- C8 counterexample: in `Slice_position_accuracy.py`, when the
required line is not drawn (`imp.getRoi()` is `None`) the measurement
step does not re-prompt or abort — it returns the default measurement
value `0`, which flows into the reported result (`medida1`/`medida2`),
so the claim that no default measurement is ever substituted is false
at this concrete input. -/
theorem get_measurement_missing_roi_default_zero :
    SlicePosition.get_measurement RoiSel.missing 1 = 0 ∧
    SlicePosition.get_measurement RoiSel.wrongShape 1 = 0 := by
  exact ⟨rfl, rfl⟩

/-- C8 (amended): `Geometric_accuracy.py` yields no measurement
(`None`) for a missing or wrong-shape ROI after an error dialog, and a
length for a valid line; `Slice_position_accuracy.py` instead notifies
the operator and substitutes the default measurement `0` (treating the
bar difference as zero) — neither variant re-prompts. -/
theorem get_measurement_invalid_roi_spec :
    (∀ pw : ℚ, SlicePosition.get_measurement RoiSel.missing pw = 0 ∧
      SlicePosition.get_measurement RoiSel.wrongShape pw = 0) ∧
    GeometricAccuracy.get_measurement RoiSel.missing = none ∧
    GeometricAccuracy.get_measurement RoiSel.wrongShape = none ∧
    ∀ length x_val : ℚ,
      GeometricAccuracy.get_measurement (RoiSel.line length x_val) = some length := by
  exact ⟨fun _ => ⟨rfl, rfl⟩, rfl, rfl, fun _ _ => rfl⟩

/-- A Jython double as it matters to the low-contrast test: either NaN
or an ordinary numeric value (modelled as an exact rational). -/
inductive PyFloat where
  | nan : PyFloat
  | val : ℚ → PyFloat
deriving DecidableEq

namespace PyFloat

/-- IEEE-754 addition restricted to this model: any NaN operand makes
the sum NaN, otherwise the values add. -/
def add : PyFloat → PyFloat → PyFloat
  | val a, val b => val (a + b)
  | _, _ => nan

end PyFloat

/-- The sentinel `CANCEL_SENTINEL = float(-2147483648.0)` in
`Low_contrast_objective_detectability.py` (line 110): the host
dialog's integer cancel sentinel. -/
def CANCEL_SENTINEL : ℚ := -2147483648

/-- Function `get_number_or_nan` of `Low_contrast_objective_detectability.py`
(lines 112–116): the dialog result `v` is mapped to NaN when it equals
the cancel sentinel or is already NaN, and returned unchanged
otherwise. -/
def get_number_or_nan (v : PyFloat) : PyFloat :=
  match v with
  | PyFloat.nan => PyFloat.nan
  | PyFloat.val q => if q = CANCEL_SENTINEL then PyFloat.nan else PyFloat.val q

/-- The sum `spheres_T1 = t1_slice8 + t1_slice9 + t1_slice10 + t1_slice11`
(and likewise `spheres_T2`) at lines 413–414 of
`Low_contrast_objective_detectability.py`: the left-associated float
sum of the four per-slice spoke-count entries. -/
def spheres_total (a b c d : PyFloat) : PyFloat :=
  ((a.add b).add c).add d

/-- Any NaN operand absorbs the float addition. -/
theorem pyfloat_add_nan (a b : PyFloat) (h : a = PyFloat.nan ∨ b = PyFloat.nan) :
    a.add b = PyFloat.nan := by
  rcases h with h | h
  · subst h
    cases b <;> rfl
  · subst h
    cases a <;> rfl

/-- C9: in the low-contrast test, when at least one of the four
per-slice entries (each produced by `get_number_or_nan`) is NaN, the
reported per-test total is NaN — in particular it is not the numeric
value `0`, so a cancelled entry is never silently coerced to zero. -/
theorem spheres_total_nan_spec (v1 v2 v3 v4 : PyFloat)
    (h : get_number_or_nan v1 = PyFloat.nan ∨ get_number_or_nan v2 = PyFloat.nan ∨
      get_number_or_nan v3 = PyFloat.nan ∨ get_number_or_nan v4 = PyFloat.nan) :
    spheres_total (get_number_or_nan v1) (get_number_or_nan v2)
        (get_number_or_nan v3) (get_number_or_nan v4) = PyFloat.nan ∧
    spheres_total (get_number_or_nan v1) (get_number_or_nan v2)
        (get_number_or_nan v3) (get_number_or_nan v4) ≠ PyFloat.val 0 := by
  have habs :
      spheres_total (get_number_or_nan v1) (get_number_or_nan v2)
        (get_number_or_nan v3) (get_number_or_nan v4) = PyFloat.nan := by
    rcases h with h | h | h | h
    · exact pyfloat_add_nan _ _ (Or.inl (pyfloat_add_nan _ _
        (Or.inl (pyfloat_add_nan _ _ (Or.inl h)))))
    · exact pyfloat_add_nan _ _ (Or.inl (pyfloat_add_nan _ _
        (Or.inl (pyfloat_add_nan _ _ (Or.inr h)))))
    · exact pyfloat_add_nan _ _ (Or.inl (pyfloat_add_nan _ _ (Or.inr h)))
    · exact pyfloat_add_nan _ _ (Or.inr h)
  refine ⟨habs, ?_⟩
  rw [habs]
  intro hcon
  exact PyFloat.noConfusion hcon

/-- Witness for C9: cancelling the first entry (the sentinel value)
while the other three are ordinary counts makes the T1 total NaN. -/
theorem spheres_total_nan_spec_witness :
    spheres_total (get_number_or_nan (PyFloat.val CANCEL_SENTINEL))
        (get_number_or_nan (PyFloat.val 10)) (get_number_or_nan (PyFloat.val 9))
        (get_number_or_nan (PyFloat.val 8)) = PyFloat.nan ∧
    spheres_total (get_number_or_nan (PyFloat.val CANCEL_SENTINEL))
        (get_number_or_nan (PyFloat.val 10)) (get_number_or_nan (PyFloat.val 9))
        (get_number_or_nan (PyFloat.val 8)) ≠ PyFloat.val 0 :=
  spheres_total_nan_spec (PyFloat.val CANCEL_SENTINEL) (PyFloat.val 10)
    (PyFloat.val 9) (PyFloat.val 8) (Or.inl (by simp [get_number_or_nan]))

/-- C10: `get_number_or_nan` maps the dialog's integer cancel sentinel
`-2147483648` to NaN, maps NaN to NaN, and returns every other value
unchanged — so a genuinely entered `-2147483648` produces the same
output as a cancelled dialog. -/
theorem get_number_or_nan_spec :
    get_number_or_nan (PyFloat.val CANCEL_SENTINEL) = PyFloat.nan ∧
    get_number_or_nan PyFloat.nan = PyFloat.nan ∧
    (∀ q : ℚ, q ≠ CANCEL_SENTINEL → get_number_or_nan (PyFloat.val q) = PyFloat.val q) ∧
    get_number_or_nan (PyFloat.val CANCEL_SENTINEL) = get_number_or_nan PyFloat.nan := by
  refine ⟨by simp [get_number_or_nan], rfl, ?_, by simp [get_number_or_nan]⟩
  intro q hq
  simp [get_number_or_nan, hq]

/-- Witness for C10: the value `10` is not the sentinel and passes
through unchanged. -/
theorem get_number_or_nan_spec_witness :
    get_number_or_nan (PyFloat.val 10) = PyFloat.val 10 :=
  (get_number_or_nan_spec.2.2).1 10 (by norm_num [CANCEL_SENTINEL])

/-- Function `area_to_radius_pixels` of `Image_intensity_uniformity.py` (lines
26–32) and `Signal_to_noise_ratio.py` (lines 76–79):
`pixel_area_cm2 = px_w_cm * px_h_cm` followed by
`math.sqrt(area_cm2 / (math.pi * pixel_area_cm2))`.
A zero divisor raises `ZeroDivisionError` and a negative square-root
argument raises a math-domain `ValueError`; both failure modes are
modelled as `none`. -/
noncomputable def area_to_radius_pixels (area_cm2 px_w_cm px_h_cm : ℝ) : Option ℝ :=
  if Real.pi * (px_w_cm * px_h_cm) = 0 then none
  else if area_cm2 / (Real.pi * (px_w_cm * px_h_cm)) < 0 then none
  else some (Real.sqrt (area_cm2 / (Real.pi * (px_w_cm * px_h_cm))))

/-- C6 counterexample: at `area = π`, `w = -1`, `h = -1` — both pixel
dimensions ≤ 0 — the conversion does not fail: the product `w * h` is
positive, so it returns the valid radius `1`.  The guard implied by
the claim would have to be on each dimension, but the code only ever
sees the product. -/
theorem area_to_radius_pixels_negative_dims :
    area_to_radius_pixels Real.pi (-1) (-1) = some 1 := by
  have hprod : ((-1 : ℝ) * (-1)) = 1 := by norm_num
  have hdiv : Real.pi * ((-1 : ℝ) * (-1)) = Real.pi := by rw [hprod, mul_one]
  have harg : Real.pi / (Real.pi * ((-1 : ℝ) * (-1))) = 1 := by
    rw [hdiv]
    exact div_self Real.pi_ne_zero
  rw [area_to_radius_pixels, if_neg, if_neg]
  · rw [harg, Real.sqrt_one]
  · rw [harg]
    norm_num
  · rw [hdiv]
    exact Real.pi_ne_zero

/-- C6 (amended): whenever the pixel-area product `w * h` is positive
(in particular when both dimensions are positive) and the area is
nonnegative, the conversion returns `sqrt(area / (π * w * h))`, that
radius satisfies `π * radius² * (w * h) = area`, and it is monotone in
the area; the conversion fails whenever `w * h = 0` (division by
zero), or the area is positive and `w * h < 0` (negative square-root
argument) — the failure condition is on the product of the two pixel
dimensions, not on each dimension separately. -/
theorem area_to_radius_pixels_spec (area w h : ℝ) (ha : 0 ≤ area) (hwh : 0 < w * h) :
    area_to_radius_pixels area w h =
      some (Real.sqrt (area / (Real.pi * (w * h)))) ∧
    Real.pi * Real.sqrt (area / (Real.pi * (w * h))) ^ 2 * (w * h) = area ∧
    (∀ a2 : ℝ, area ≤ a2 →
      Real.sqrt (area / (Real.pi * (w * h))) ≤ Real.sqrt (a2 / (Real.pi * (w * h)))) ∧
    (∀ a2 w2 h2 : ℝ, w2 * h2 = 0 → area_to_radius_pixels a2 w2 h2 = none) ∧
    (∀ a2 w2 h2 : ℝ, 0 < a2 → w2 * h2 < 0 → area_to_radius_pixels a2 w2 h2 = none) := by
  have hd : 0 < Real.pi * (w * h) := mul_pos Real.pi_pos hwh
  have harg : 0 ≤ area / (Real.pi * (w * h)) := div_nonneg ha hd.le
  refine ⟨?_, ?_, ?_, ?_, ?_⟩
  · rw [area_to_radius_pixels, if_neg hd.ne', if_neg (not_lt.mpr harg)]
  · rw [Real.sq_sqrt harg]
    field_simp
    ring
  · intro a2 h2
    exact Real.sqrt_le_sqrt (div_le_div_of_nonneg_right h2 hd.le)
  · intro a2 w2 h2 hz
    rw [area_to_radius_pixels, if_pos]
    rw [hz, mul_zero]
  · intro a2 w2 h2 hpos hneg
    have hd2 : Real.pi * (w2 * h2) < 0 :=
      mul_neg_of_pos_of_neg Real.pi_pos hneg
    rw [area_to_radius_pixels, if_neg hd2.ne, if_pos (div_neg_of_pos_of_neg hpos hd2)]

/-- Witness for C6 (amended): at `area = 1, w = 1, h = 1` the
hypotheses hold and the amended contract follows. -/
theorem area_to_radius_pixels_spec_witness :
    area_to_radius_pixels 1 1 1 =
      some (Real.sqrt (1 / (Real.pi * (1 * 1)))) ∧
    Real.pi * Real.sqrt (1 / (Real.pi * (1 * 1))) ^ 2 * (1 * 1) = 1 ∧
    (∀ a2 : ℝ, 1 ≤ a2 →
      Real.sqrt (1 / (Real.pi * (1 * 1))) ≤ Real.sqrt (a2 / (Real.pi * (1 * 1)))) ∧
    (∀ a2 w2 h2 : ℝ, w2 * h2 = 0 → area_to_radius_pixels a2 w2 h2 = none) ∧
    (∀ a2 w2 h2 : ℝ, 0 < a2 → w2 * h2 < 0 → area_to_radius_pixels a2 w2 h2 = none) :=
  area_to_radius_pixels_spec 1 1 1 (by norm_num) (by norm_num)

/-- The `for` loop of `calculate_window_level` in
`Low_contrast_objective_detectability.py` (lines 49–56): index of the
first bin whose running cumulative count reaches the target
`total_pixels / 2`, which in the script is Python 2 *integer floor
division* of the total count by two.  `acc` is the cumulative count of
the bins already passed. -/
def cumFirstIdx : List ℕ → ℕ → ℕ → ℕ
  | [], _, _ => 0
  | y :: rest, acc, target =>
      if target ≤ acc + y then 0 else cumFirstIdx rest (acc + y) target + 1

/-- Modelled from the claim's words: the same first-bin search, but
with the cumulative count compared against exactly 50% of the total
pixel count (the rational `total / 2`, with no integer flooring). -/
def cumFirstIdxHalf : List ℕ → ℕ → ℕ → ℕ
  | [], _, _ => 0
  | y :: rest, acc, total =>
      if (total : ℚ) / 2 ≤ ((acc + y : ℕ) : ℚ) then 0
      else cumFirstIdxHalf rest (acc + y) total + 1

/-- Python `peak = max(y_vals)` (line 59). -/
def listPeak (l : List ℕ) : ℕ := l.foldr max 0

/-- Python `max(x_fit)` over a nonempty list of bin values. -/
def listMaxQ : List ℚ → ℚ
  | [] => 0
  | x :: rest => rest.foldl max x

/-- Python `min(x_fit)` over a nonempty list of bin values. -/
def listMinQ : List ℚ → ℚ
  | [] => 0
  | x :: rest => rest.foldl min x

/-- The filter loop of lines 62–67: walking the bins (whose value
starts at `hist_min` and increases by one per bin), collect the bin
values `x` with `x > median_value` and count `y >= threshold`. -/
def survivingXs : List ℕ → ℚ → ℚ → ℚ → List ℚ
  | [], _, _, _ => []
  | y :: rest, x, median_value, threshold =>
      (if median_value < x ∧ threshold ≤ (y : ℚ) then [x] else []) ++
        survivingXs rest (x + 1) median_value threshold

/-- Function `calculate_window_level` of
`Low_contrast_objective_detectability.py` (lines 30–76), on the
histogram data `(bin counts, hist_min)`: find the median bin by the
cumulative-count loop with Python 2 integer division (`total_pixels / 2`),
filter the bins above the median whose count is at least
`peak * 0.02`, and return the midpoint and spread of the surviving bin
values — or `(None, None)` when fewer than two bins survive.  (An
empty histogram, on which the script would raise an `IndexError` at
`x_vals[-1]`, is mapped to `none` and lies outside every claim.) -/
def calculate_window_level (counts : List ℕ) (hist_min : ℚ) : Option (ℚ × ℚ) :=
  if counts = [] then none
  else
    let total := counts.sum
    let mIdx := cumFirstIdx counts 0 (total / 2)
    let median_value := hist_min + (mIdx : ℚ)
    let peak := listPeak counts
    let threshold := (peak : ℚ) * (2 / 100)
    let x_fit := survivingXs counts hist_min median_value threshold
    if x_fit.length < 2 then none
    else some ((listMaxQ x_fit + listMinQ x_fit) / 2, listMaxQ x_fit - listMinQ x_fit)

/-- Modelled from the claim's words: identical to
`calculate_window_level` except that the median bin is the first bin
at which the cumulative count reaches exactly 50% of the total pixel
count. -/
def calculate_window_level_claimed (counts : List ℕ) (hist_min : ℚ) : Option (ℚ × ℚ) :=
  if counts = [] then none
  else
    let total := counts.sum
    let mIdx := cumFirstIdxHalf counts 0 total
    let median_value := hist_min + (mIdx : ℚ)
    let peak := listPeak counts
    let threshold := (peak : ℚ) * (2 / 100)
    let x_fit := survivingXs counts hist_min median_value threshold
    if x_fit.length < 2 then none
    else some ((listMaxQ x_fit + listMinQ x_fit) / 2, listMaxQ x_fit - listMinQ x_fit)

/-- C5 counterexample: on the histogram with counts `[2, 1, 2]` and
minimum bin value `0` (total 5 pixels), the script's integer division
makes the cumulative target `5 / 2 = 2`, so the first bin (cumulative
count 2) already becomes the median and the code returns
`(level, window) = (3/2, 1)`; under the claimed exact-50% rule
(target `2.5`) the median is the second bin, only one bin survives the
filter, and the result would be `(None, None)`. -/
theorem calculate_window_level_median_rounding :
    calculate_window_level [2, 1, 2] 0 = some (3 / 2, 1) ∧
    calculate_window_level_claimed [2, 1, 2] 0 = none := by
  constructor
  · norm_num [calculate_window_level, cumFirstIdx, listPeak, survivingXs,
      listMaxQ, listMinQ, max_def, min_def]
    intro h
    simp at h
  · norm_num [calculate_window_level_claimed, cumFirstIdxHalf, listPeak,
      survivingXs, listMaxQ, listMinQ, max_def, min_def]

/-- The cumulative loop finds exactly the least bin index whose
cumulative count (on top of the already-accumulated `acc`) reaches the
target, provided the total suffices. -/
theorem cumFirstIdx_least (ys : List ℕ) :
    ∀ acc target : ℕ, ys ≠ [] → target ≤ acc + ys.sum →
      cumFirstIdx ys acc target < ys.length ∧
      target ≤ acc + (ys.take (cumFirstIdx ys acc target + 1)).sum ∧
      ∀ j, j < cumFirstIdx ys acc target → acc + (ys.take (j + 1)).sum < target := by
  induction ys with
  | nil =>
    intro acc target hne _
    exact absurd rfl hne
  | cons y rest ih =>
    intro acc target _ htot
    by_cases hc : target ≤ acc + y
    · rw [show cumFirstIdx (y :: rest) acc target = 0 by simp [cumFirstIdx, hc]]
      refine ⟨Nat.succ_pos _, ?_, ?_⟩
      · simpa using hc
      · intro j hj
        exact absurd hj (Nat.not_lt_zero j)
    · have hylt : acc + y < target := not_le.mp hc
      have hrest : rest ≠ [] := by
        intro hr
        subst hr
        simp only [List.sum_cons, List.sum_nil] at htot
        omega
      have htot' : target ≤ (acc + y) + rest.sum := by
        simp only [List.sum_cons] at htot
        omega
      obtain ⟨ih1, ih2, ih3⟩ := ih (acc + y) target hrest htot'
      rw [show cumFirstIdx (y :: rest) acc target =
            cumFirstIdx rest (acc + y) target + 1 by simp [cumFirstIdx, hc]]
      refine ⟨?_, ?_, ?_⟩
      · simpa [List.length_cons] using Nat.succ_lt_succ ih1
      · rw [List.take_succ_cons, List.sum_cons]
        omega
      · intro j hj
        cases j with
        | zero =>
          rw [List.take_succ_cons, List.take_zero, List.sum_cons, List.sum_nil]
          omega
        | succ k =>
          have hk := ih3 k (by omega)
          rw [List.take_succ_cons, List.sum_cons]
          omega

/-- C5 (amended): for every non-empty histogram, the heuristic takes
as median the value of the first bin at which the cumulative count
reaches `⌊total / 2⌋` — 50% of the total pixel count rounded down by
Python 2 integer division — keeps only bins strictly above that median
with count at least 2% of the peak count, and returns the midpoint and
spread of the surviving bin values, or `(None, None)` exactly when
fewer than two bins survive. -/
theorem calculate_window_level_spec (counts : List ℕ) (hist_min : ℚ)
    (hne : counts ≠ []) :
    ∃ m, m < counts.length ∧
      counts.sum / 2 ≤ (counts.take (m + 1)).sum ∧
      (∀ j, j < m → (counts.take (j + 1)).sum < counts.sum / 2) ∧
      calculate_window_level counts hist_min =
        (if (survivingXs counts hist_min (hist_min + (m : ℚ))
              ((listPeak counts : ℚ) * (2 / 100))).length < 2 then none
         else some
           ((listMaxQ (survivingXs counts hist_min (hist_min + (m : ℚ))
                ((listPeak counts : ℚ) * (2 / 100))) +
             listMinQ (survivingXs counts hist_min (hist_min + (m : ℚ))
                ((listPeak counts : ℚ) * (2 / 100)))) / 2,
            listMaxQ (survivingXs counts hist_min (hist_min + (m : ℚ))
                ((listPeak counts : ℚ) * (2 / 100))) -
            listMinQ (survivingXs counts hist_min (hist_min + (m : ℚ))
                ((listPeak counts : ℚ) * (2 / 100))))) := by
  obtain ⟨h1, h2, h3⟩ := cumFirstIdx_least counts 0 (counts.sum / 2) hne
    (by simpa using Nat.div_le_self counts.sum 2)
  refine ⟨cumFirstIdx counts 0 (counts.sum / 2), h1, by simpa using h2, ?_, ?_⟩
  · intro j hj
    have := h3 j hj
    simpa using this
  · rw [calculate_window_level, if_neg hne]

/-- Witness for C5 (amended): the singleton histogram `[1]` with
minimum bin value `0`. -/
theorem calculate_window_level_spec_witness :
    ∃ m, m < [1].length ∧
      [1].sum / 2 ≤ ([1].take (m + 1)).sum ∧
      (∀ j, j < m → ([1].take (j + 1)).sum < [1].sum / 2) ∧
      calculate_window_level [1] 0 =
        (if (survivingXs [1] 0 (0 + (m : ℚ))
              ((listPeak [1] : ℚ) * (2 / 100))).length < 2 then none
         else some
           ((listMaxQ (survivingXs [1] 0 (0 + (m : ℚ))
                ((listPeak [1] : ℚ) * (2 / 100))) +
             listMinQ (survivingXs [1] 0 (0 + (m : ℚ))
                ((listPeak [1] : ℚ) * (2 / 100)))) / 2,
            listMaxQ (survivingXs [1] 0 (0 + (m : ℚ))
                ((listPeak [1] : ℚ) * (2 / 100))) -
            listMinQ (survivingXs [1] 0 (0 + (m : ℚ))
                ((listPeak [1] : ℚ) * (2 / 100))))) :=
  calculate_window_level_spec [1] 0 (by simp)

end MacroQA
